import Mathlib

/-!
# Verification of the Durable-Task-Scheduler Python samples

Shallow embedding of the orchestrator, activity and HTTP-trigger functions
of the repository's Python samples, together with a model (taken from the
specification) of the engine-side replay executor and fan-in that the
samples run against.  Python's JSON-compatible values are modelled by the
inductive type `Val`; Python numbers (ints and floats alike) are modelled
as exact rationals; a raised Python exception is modelled as `Except.error`
carrying the message string.
-/

namespace DTS

/-- JSON-compatible structured value, the payload type exchanged across
every activity/orchestration boundary in the samples.  Python dicts are
insertion-ordered association lists, numbers are exact rationals. -/
inductive Val where
  | null : Val
  | bool (b : Bool) : Val
  | num (q : ℚ) : Val
  | str (s : String) : Val
  | arr (xs : List Val) : Val
  | obj (fields : List (String × Val)) : Val

instance : Inhabited Val := ⟨.null⟩

namespace Val

/-- `d.get(k)` on a Python dict: first binding of the key, `none` when the
key is absent or the value is not a dict. -/
def get? : Val → String → Option Val
  | .obj fs, k => List.lookup k fs
  | _, _ => none

/-- `d.get(k, default)` on a Python dict. -/
def getD (v : Val) (k : String) (d : Val) : Val := (v.get? k).getD d

/-- Replace the first binding of `k` (keeping its position, as a Python
dict does) or append a fresh binding at the end. -/
def setField : List (String × Val) → String → Val → List (String × Val)
  | [], k, v => [(k, v)]
  | (k', v') :: rest, k, v =>
    if k' = k then (k, v) :: rest else (k', v') :: setField rest k v

/-- `{**d, k: v}` / `d[k] = v` on a Python dict; identity on non-dicts. -/
def set : Val → String → Val → Val
  | .obj fs, k, v => .obj (setField fs k v)
  | w, _, _ => w

/-- Python truthiness of a JSON value. -/
def truthy : Val → Bool
  | .null => false
  | .bool b => b
  | .num q => q ≠ 0
  | .str s => s ≠ ""
  | .arr xs => !xs.isEmpty
  | .obj fs => !fs.isEmpty

end Val

/-- One asynchronous action requested by an orchestrator: an activity
call (or entity call) identified by the registered activity name and the
serialized input. -/
structure Action where
  name : String
  input : Val

/-- Result of one dispatched activity as fed back to the orchestrator:
either the activity's return value or the raised exception's message. -/
abbrev CompR := Except String Val

/-- One resumption datum injected by the engine at a suspension point:
a batch of activity completions (a singleton for a single `call_activity`
await, the full child list for a `task_all` await) or an external event
payload. -/
inductive Inj where
  | comps (rs : List CompR) : Inj
  | event (v : Val) : Inj

/-- Free-monad embedding of a generator-style orchestrator: between two
suspension points the code is a pure Lean function, exactly mirroring the
Python generator bodies.  `call` awaits a batch of scheduled activities
(`task_all`; single calls are the singleton case), `waitEvent` awaits a
named external event, `contAsNew` is `continue_as_new`, `fail` is an
uncaught exception escaping the orchestrator. -/
inductive OrchM where
  | ret (v : Val) : OrchM
  | fail (e : String) : OrchM
  | contAsNew (v : Val) : OrchM
  | call (acts : List Action) (k : List CompR → OrchM) : OrchM
  | waitEvent (name : String) (k : Val → OrchM) : OrchM

/-- `yield ctx.call_activity(name, input)`: a single-activity await. -/
def call1 (a : Action) (k : CompR → OrchM) : OrchM :=
  .call [a] fun rs => k (rs.headD (.error "missing result"))

/-- Terminal outcome of one execution pass of an orchestrator. -/
inductive Outcome where
  | done (v : Val) : Outcome
  | failed (e : String) : Outcome
  | continued (v : Val) : Outcome

/-- Run an orchestrator feeding it the given resumption data in order:
returns the batches of actions it schedules (in order) and, when it does
not suspend waiting for more data, its outcome.  A resumption datum of
the wrong shape for the current suspension point leaves the orchestrator
suspended. -/
def runTrace : OrchM → List Inj → List (List Action) × Option Outcome
  | .ret v, _ => ([], some (.done v))
  | .fail e, _ => ([], some (.failed e))
  | .contAsNew v, _ => ([], some (.continued v))
  | .call as _, [] => ([as], none)
  | .call as k, .comps rs :: rest =>
    let t := runTrace (k rs) rest
    (as :: t.1, t.2)
  | .call as _, .event _ :: _ => ([as], none)
  | .waitEvent _ _, [] => ([], none)
  | .waitEvent _ k, .event v :: rest => runTrace (k v) rest
  | .waitEvent _ _, .comps _ :: _ => ([], none)

/-- The batches of actions scheduled during a run. -/
def runActs (o : OrchM) (injs : List Inj) : List (List Action) := (runTrace o injs).1

/-- The outcome of a run (`none` while still suspended). -/
def runOut (o : OrchM) (injs : List Inj) : Option Outcome := (runTrace o injs).2

/-- The history log recorded by the engine during a run: each consumed
suspension point paired with the batch of actions it scheduled (empty for
an external-event wait) and the resumption datum that resolved it. -/
def histOf (o : OrchM) : List Inj → List (List Action × Inj)
  | [] => []
  | i :: rest =>
    match o, i with
    | .call as k, .comps rs => (as, .comps rs) :: histOf (k rs) rest
    | .waitEvent _ k, .event v => ([], .event v) :: histOf (k v) rest
    | _, _ => []

/-- Modelled from the spec: the deterministic replay executor's pass over
a recorded history, collecting every batch of actions the orchestrator
requests — replayed ones (fed their stored completions) and, at the end
of history, the newly scheduled batch. -/
def replayActs (o : OrchM) : List (List Action × Inj) → List (List Action)
  | [] =>
    match o with
    | .call as _ => [as]
    | _ => []
  | (_, i) :: rest =>
    match o, i with
    | .call as k, .comps rs => as :: replayActs (k rs) rest
    | .waitEvent _ k, .event v => replayActs (k v) rest
    | .call as _, .event _ => [as]
    | _, _ => []

/-- Modelled from the spec: the set of actions not yet recorded in history
that a replay pass must newly dispatch ("Neither exists → append a new
*Scheduled event … instruct dispatch"). -/
def newActions (o : OrchM) : List (List Action × Inj) → List (List Action)
  | [] =>
    match o with
    | .call as _ => [as]
    | _ => []
  | (_, i) :: rest =>
    match o, i with
    | .call _ k, .comps rs => newActions (k rs) rest
    | .waitEvent _ k, .event v => newActions (k v) rest
    | .call as _, .event _ => [as]
    | _, _ => []

/-- Replaying the history recorded by a run reproduces exactly the batches
of actions that run scheduled (the determinism invariant). -/
theorem replayActs_histOf (injs : List Inj) :
    ∀ o : OrchM, replayActs o (histOf o injs) = runActs o injs := by
  induction injs with
  | nil =>
    intro o
    cases o <;> rfl
  | cons i rest ih =>
    intro o
    cases o with
    | ret v => cases i <;> rfl
    | fail e => cases i <;> rfl
    | contAsNew v => cases i <;> rfl
    | call as k =>
      cases i with
      | comps rs =>
        simp only [histOf, replayActs, runActs, runTrace]
        exact congrArg (as :: ·) (ih (k rs))
      | event v => rfl
    | waitEvent n k =>
      cases i with
      | comps rs => rfl
      | event v =>
        simp only [histOf, replayActs, runActs, runTrace]
        exact ih (k v)

/-- Replaying the complete history of a finished run schedules no new
actions. -/
theorem newActions_histOf_complete (injs : List Inj) :
    ∀ o : OrchM, (runOut o injs).isSome →
      newActions o (histOf o injs) = [] := by
  induction injs with
  | nil =>
    intro o h
    cases o <;> first | rfl | simp [runOut, runTrace] at h
  | cons i rest ih =>
    intro o h
    cases o with
    | ret v => cases i <;> rfl
    | fail e => cases i <;> rfl
    | contAsNew v => cases i <;> rfl
    | call as k =>
      cases i with
      | comps rs =>
        simp only [histOf, newActions]
        exact ih (k rs) h
      | event v => simp [runOut, runTrace] at h
    | waitEvent n k =>
      cases i with
      | comps rs => simp [runOut, runTrace] at h
      | event v =>
        simp only [histOf, newActions]
        exact ih (k v) h

/-! ## Saga sample (`samples/durable-task-sdks/python/saga/worker.py`) -/

/-- The `"failed"` result dict built by `travel_booking_saga`'s `except`
branch after the compensation loop. -/
def sagaFailResult (err : String) (compensations : List Val) (destination : Val) : Val :=
  .obj [("status", .str "failed"), ("error", .str err),
        ("compensations", .arr compensations), ("destination", destination)]

/-- The compensation loop of `travel_booking_saga`: pop each completed
booking (already reversed by the caller, matching
`reversed(completed_bookings)`), call its compensating activity, record
the result — or, when the compensation itself raises, record
`"Compensation failed: …"` and keep going. -/
def compensationLoop (destination : Val) (err : String)
    (pending : List (Val × String)) (compensations : List Val) : OrchM :=
  match pending with
  | [] => .ret (sagaFailResult err compensations destination)
  | (booking, cancelActivity) :: rest =>
    call1 ⟨cancelActivity, booking⟩ fun r =>
      match r with
      | .ok result => compensationLoop destination err rest (compensations ++ [result])
      | .error comp_error =>
        compensationLoop destination err rest
          (compensations ++ [.str ("Compensation failed: " ++ comp_error)])

/-- `travel_booking_saga` orchestrator: book flight → hotel → car, pushing
`(booking, cancel-activity)` pairs; any failure inside the `try` block —
an activity error surfacing at its `yield`, or a `KeyError` while building
the success dict — triggers the compensation loop over the completed
bookings in reverse order. -/
def travel_booking_saga (input : Val) : OrchM :=
  match input.get? "destination" with
  | none => .fail "KeyError: 'destination'"
  | some destination =>
    let nights := input.getD "nights" (.num 3)
    let simulate_car_failure := input.getD "simulate_car_failure" (.bool false)
    call1 ⟨"book_flight", .obj [("destination", destination)]⟩ fun r1 =>
    match r1 with
    | .error e => compensationLoop destination e ([] : List (Val × String)).reverse []
    | .ok flight =>
      let completed₁ := [(flight, "cancel_flight")]
      call1 ⟨"book_hotel", .obj [("destination", destination), ("nights", nights)]⟩ fun r2 =>
      match r2 with
      | .error e => compensationLoop destination e completed₁.reverse []
      | .ok hotel =>
        let completed₂ := completed₁ ++ [(hotel, "cancel_hotel")]
        call1 ⟨"book_car", .obj [("destination", destination),
                                 ("simulate_car_failure", simulate_car_failure)]⟩ fun r3 =>
        match r3 with
        | .error e => compensationLoop destination e completed₂.reverse []
        | .ok car =>
          let completed₃ := completed₂ ++ [(car, "cancel_car")]
          match flight.get? "confirmation" with
          | none => compensationLoop destination "'confirmation'" completed₃.reverse []
          | some flight_conf =>
          match hotel.get? "confirmation" with
          | none => compensationLoop destination "'confirmation'" completed₃.reverse []
          | some hotel_conf =>
          match car.get? "confirmation" with
          | none => compensationLoop destination "'confirmation'" completed₃.reverse []
          | some car_conf =>
            .ret (.obj [("status", .str "success"),
                        ("bookings", .obj [("flight", flight_conf), ("hotel", hotel_conf),
                                           ("car", car_conf)]),
                        ("destination", destination)])

/-- What the compensation loop records for one compensating call: the
activity's result, or `"Compensation failed: …"` when it raised. -/
def compRecord : CompR → Val
  | .ok v => v
  | .error e => .str ("Compensation failed: " ++ e)

/-- C2: In the 3-step travel booking saga, when `book_car` fails after
`book_flight` and `book_hotel` succeeded, the compensating activities run
in last-in-first-out order — `cancel_hotel` (step 2) strictly before
`cancel_flight` (step 1) — and the loop continues even when an individual
compensation raises, recording `"Compensation failed: …"` instead of
stopping. -/
theorem saga_compensation_lifo (input destination flight hotel : Val)
    (carErr : String) (c1 c2 : CompR)
    (hdest : input.get? "destination" = some destination) :
    runTrace (travel_booking_saga input)
        [.comps [.ok flight], .comps [.ok hotel], .comps [.error carErr],
         .comps [c1], .comps [c2]] =
      ([[⟨"book_flight", .obj [("destination", destination)]⟩],
        [⟨"book_hotel", .obj [("destination", destination),
                              ("nights", input.getD "nights" (.num 3))]⟩],
        [⟨"book_car", .obj [("destination", destination),
             ("simulate_car_failure", input.getD "simulate_car_failure" (.bool false))]⟩],
        [⟨"cancel_hotel", hotel⟩],
        [⟨"cancel_flight", flight⟩]],
       some (.done (sagaFailResult carErr [compRecord c1, compRecord c2] destination))) := by
  cases c1 <;> cases c2 <;>
    simp [travel_booking_saga, hdest, compensationLoop, call1, runTrace, compRecord]

/-- Witness for `saga_compensation_lifo` at a concrete booking where the
first compensation raises and the second succeeds. -/
theorem saga_compensation_lifo_witness :
    (Val.obj [("destination", Val.str "Paris"),
              ("simulate_car_failure", Val.bool true)]).get? "destination"
        = some (.str "Paris")
    ∧ runTrace (travel_booking_saga
          (.obj [("destination", .str "Paris"), ("simulate_car_failure", .bool true)]))
        [.comps [.ok (.obj [("confirmation", .str "FL1")])],
         .comps [.ok (.obj [("confirmation", .str "HT1")])],
         .comps [.error "No rental cars available in Paris"],
         .comps [.error "hotel cancellation outage"],
         .comps [.ok (.str "Flight FL1 cancelled")]] =
      ([[⟨"book_flight", .obj [("destination", .str "Paris")]⟩],
        [⟨"book_hotel", .obj [("destination", .str "Paris"), ("nights", .num 3)]⟩],
        [⟨"book_car", .obj [("destination", .str "Paris"),
                            ("simulate_car_failure", .bool true)]⟩],
        [⟨"cancel_hotel", .obj [("confirmation", .str "HT1")]⟩],
        [⟨"cancel_flight", .obj [("confirmation", .str "FL1")]⟩]],
       some (.done (sagaFailResult "No rental cars available in Paris"
         [.str "Compensation failed: hotel cancellation outage",
          .str "Flight FL1 cancelled"] (.str "Paris")))) :=
  ⟨rfl,
   saga_compensation_lifo
     (.obj [("destination", .str "Paris"), ("simulate_car_failure", .bool true)])
     (.str "Paris") (.obj [("confirmation", .str "FL1")]) (.obj [("confirmation", .str "HT1")])
     "No rental cars available in Paris"
     (.error "hotel cancellation outage") (.ok (.str "Flight FL1 cancelled")) rfl⟩

theorem compensationLoop_status (pending : List (Val × String)) :
    ∀ (destination : Val) (err : String) (comps : List Val) (injs : List Inj) (v : Val),
      runOut (compensationLoop destination err pending comps) injs = some (.done v) →
      v.get? "status" = some (.str "failed") := by
  induction pending with
  | nil =>
    intro dest err comps injs v h
    simp only [compensationLoop, runOut, runTrace, Option.some.injEq] at h
    cases h
    rfl
  | cons head rest ih =>
    obtain ⟨booking, cancelActivity⟩ := head
    intro dest err comps injs v h
    cases injs with
    | nil => simp [compensationLoop, call1, runOut, runTrace] at h
    | cons i rest' =>
      cases i with
      | event _ => simp [compensationLoop, call1, runOut, runTrace] at h
      | comps rs =>
        simp only [compensationLoop, call1, runOut, runTrace] at h
        cases hr : rs.headD (.error "missing result") with
        | error e =>
          rw [hr] at h
          exact ih dest err _ rest' v h
        | ok w =>
          rw [hr] at h
          exact ih dest err _ rest' v h

theorem saga_status_aux (input : Val) (injs : List Inj) (v : Val)
    (h : runOut (travel_booking_saga input) injs = some (.done v)) :
    v.get? "status" = some (.str "success") ∨ v.get? "status" = some (.str "failed") := by
  rcases hdes : input.get? "destination" with _ | destination
  · simp [travel_booking_saga, hdes, runOut, runTrace] at h
  · simp only [travel_booking_saga, hdes] at h
    cases injs with
    | nil => simp [call1, runOut, runTrace] at h
    | cons i1 rest1 =>
      cases i1 with
      | event _ => simp [call1, runOut, runTrace] at h
      | comps rs1 =>
        simp only [call1, runOut, runTrace] at h
        cases hr1 : rs1.headD (.error "missing result") with
        | error e =>
          rw [hr1] at h
          exact Or.inr (compensationLoop_status _ destination e [] rest1 v h)
        | ok flight =>
          rw [hr1] at h
          cases rest1 with
          | nil => simp [call1, runOut, runTrace] at h
          | cons i2 rest2 =>
            cases i2 with
            | event _ => simp [call1, runOut, runTrace] at h
            | comps rs2 =>
              simp only [call1, runOut, runTrace] at h
              cases hr2 : rs2.headD (.error "missing result") with
              | error e =>
                rw [hr2] at h
                exact Or.inr (compensationLoop_status _ destination e [] rest2 v h)
              | ok hotel =>
                rw [hr2] at h
                cases rest2 with
                | nil => simp [call1, runOut, runTrace] at h
                | cons i3 rest3 =>
                  cases i3 with
                  | event _ => simp [call1, runOut, runTrace] at h
                  | comps rs3 =>
                    simp only [call1, runOut, runTrace] at h
                    cases hr3 : rs3.headD (.error "missing result") with
                    | error e =>
                      rw [hr3] at h
                      exact Or.inr (compensationLoop_status _ destination e [] rest3 v h)
                    | ok car =>
                      rw [hr3] at h
                      rcases hc1 : flight.get? "confirmation" with _ | fc
                      · simp only [hc1] at h
                        exact Or.inr (compensationLoop_status _ destination _ [] rest3 v h)
                      · simp only [hc1] at h
                        rcases hc2 : hotel.get? "confirmation" with _ | hc
                        · simp only [hc2] at h
                          exact Or.inr (compensationLoop_status _ destination _ [] rest3 v h)
                        · simp only [hc2] at h
                          rcases hc3 : car.get? "confirmation" with _ | cc
                          · simp only [hc3] at h
                            exact Or.inr (compensationLoop_status _ destination _ [] rest3 v h)
                          · simp only [hc3, runOut, runTrace, Option.some.injEq] at h
                            cases h
                            left
                            rfl
/-- C3 counterexample: at a concrete booking with `simulate_car_failure`
the orchestration completes with status `"failed"`, not
`"compensated-failure"` as the claim states. -/
theorem saga_status_not_compensated_failure :
    runOut (travel_booking_saga
        (.obj [("destination", .str "Paris"), ("simulate_car_failure", .bool true)]))
      [.comps [.ok (.obj [("confirmation", .str "FL1")])],
       .comps [.ok (.obj [("confirmation", .str "HT1")])],
       .comps [.error "No rental cars available in Paris"],
       .comps [.ok (.str "Hotel HT1 cancelled")],
       .comps [.ok (.str "Flight FL1 cancelled")]]
      = some (.done (sagaFailResult "No rental cars available in Paris"
          [.str "Hotel HT1 cancelled", .str "Flight FL1 cancelled"] (.str "Paris")))
    ∧ (sagaFailResult "No rental cars available in Paris"
        [.str "Hotel HT1 cancelled", .str "Flight FL1 cancelled"] (.str "Paris")).get? "status"
        = some (.str "failed")
    ∧ ¬ (sagaFailResult "No rental cars available in Paris"
        [.str "Hotel HT1 cancelled", .str "Flight FL1 cancelled"] (.str "Paris")).get? "status"
        = some (.str "compensated-failure") := by
  refine ⟨rfl, rfl, ?_⟩
  intro hcontra
  simp [sagaFailResult, Val.get?, List.lookup] at hcontra

/-- C3 (amended): every completed run of `travel_booking_saga` reports a
status in `{"success", "failed"}`; in particular when `book_car` raises
the activity failure is surfaced as a catchable error at the awaiting
yield, the orchestration completes normally, and its result carries
status `"failed"`. -/
theorem saga_aggregate_status :
    (∀ (input : Val) (injs : List Inj) (v : Val),
        runOut (travel_booking_saga input) injs = some (.done v) →
        v.get? "status" = some (.str "success") ∨ v.get? "status" = some (.str "failed"))
    ∧ (∀ (input destination flight hotel : Val) (carErr : String) (c1 c2 : CompR),
        input.get? "destination" = some destination →
        runOut (travel_booking_saga input)
            [.comps [.ok flight], .comps [.ok hotel], .comps [.error carErr],
             .comps [c1], .comps [c2]]
          = some (.done (sagaFailResult carErr [compRecord c1, compRecord c2] destination))
        ∧ (sagaFailResult carErr [compRecord c1, compRecord c2] destination).get? "status"
            = some (.str "failed")) := by
  constructor
  · exact saga_status_aux
  · intro input destination flight hotel carErr c1 c2 hdest
    constructor
    · cases c1 <;> cases c2 <;>
        simp [runOut, travel_booking_saga, hdest, compensationLoop, call1, runTrace, compRecord]
    · rfl

/-- Witness for `saga_aggregate_status` at a concrete failed booking. -/
theorem saga_aggregate_status_witness :
    ((sagaFailResult "no cars" [.str "h ok", .str "f ok"] (.str "Rome")).get? "status"
          = some (.str "success")
      ∨ (sagaFailResult "no cars" [.str "h ok", .str "f ok"] (.str "Rome")).get? "status"
          = some (.str "failed"))
    ∧ ((Val.obj [("destination", Val.str "Rome"),
                 ("simulate_car_failure", Val.bool true)]).get? "destination"
          = some (.str "Rome")
       ∧ runOut (travel_booking_saga
            (.obj [("destination", .str "Rome"), ("simulate_car_failure", .bool true)]))
            [.comps [.ok (.obj [("confirmation", .str "FL2")])],
             .comps [.ok (.obj [("confirmation", .str "HT2")])],
             .comps [.error "no cars"], .comps [.ok (.str "h ok")], .comps [.ok (.str "f ok")]]
          = some (.done (sagaFailResult "no cars"
              [compRecord (.ok (.str "h ok")), compRecord (.ok (.str "f ok"))] (.str "Rome")))) :=
  ⟨saga_aggregate_status.1
      (.obj [("destination", .str "Rome"), ("simulate_car_failure", .bool true)])
      [.comps [.ok (.obj [("confirmation", .str "FL2")])],
       .comps [.ok (.obj [("confirmation", .str "HT2")])],
       .comps [.error "no cars"], .comps [.ok (.str "h ok")], .comps [.ok (.str "f ok")]]
      (sagaFailResult "no cars" [.str "h ok", .str "f ok"] (.str "Rome")) rfl,
   rfl,
   (saga_aggregate_status.2
      (.obj [("destination", .str "Rome"), ("simulate_car_failure", .bool true)])
      (.str "Rome") (.obj [("confirmation", .str "FL2")]) (.obj [("confirmation", .str "HT2")])
      "no cars" (.ok (.str "h ok")) (.ok (.str "f ok")) rfl).1⟩
/-! ## Fan-out/fan-in sample
(`samples/durable-functions/python/fan-out-fan-in/function_app.py`) -/

/-- Round-half-to-even to an integer: the behavior of Python's `round`
(with numbers modelled as exact rationals). -/
def roundHalfEven (q : ℚ) : ℤ :=
  if q - ⌊q⌋ < 1/2 then ⌊q⌋
  else if 1/2 < q - ⌊q⌋ then ⌊q⌋ + 1
  else if ⌊q⌋ % 2 = 0 then ⌊q⌋ else ⌊q⌋ + 1

/-- Python `round(q, 2)`. -/
def round2 (q : ℚ) : ℚ := (roundHalfEven (q * 100) : ℚ) / 100

/-- `r[k]` on a Python dict: `KeyError` when the key is absent. -/
def getItem (v : Val) (k : String) : Except String Val :=
  match v.get? k with
  | some w => .ok w
  | none => .error ("KeyError: '" ++ k ++ "'")

/-- `r[k]` where the surrounding `sum` needs a number (`TypeError`
otherwise, `KeyError` when absent). -/
def getNum (v : Val) (k : String) : Except String ℚ :=
  match v.get? k with
  | some (.num q) => .ok q
  | some _ => .error "TypeError: unsupported operand type"
  | none => .error ("KeyError: '" ++ k ++ "'")

/-- Left-to-right effectful map, the evaluation order of a Python list
comprehension / generator: the first raised exception propagates. -/
def mapE (f : Val → Except String α) : List Val → Except String (List α)
  | [] => .ok []
  | r :: rest => do
    let v ← f r
    let vs ← mapE f rest
    pure (v :: vs)

/-- `sum(result[k] for result in results)`. -/
def sumField (results : List Val) (k : String) : Except String ℚ := do
  let qs ← mapE (fun r => getNum r k) results
  pure qs.sum

/-- `aggregate_results` activity: totals, rounded average (division by
`len(results)` raises `ZeroDivisionError` on the empty list), rounded
total processing time, the `"result"` field of every item in order, and
a success flag. -/
def aggregate_results (results : List Val) : Except String Val := do
  let total_value ← sumField results "value"
  let total_processing_time ← sumField results "processing_time"
  let processed_items ← mapE (fun r => getItem r "result") results
  if results.length = 0 then
    .error "ZeroDivisionError: division by zero"
  else
    pure (.obj [("total_items_processed", .num results.length),
                ("total_value", .num total_value),
                ("average_value", .num (round2 (total_value / results.length))),
                ("total_processing_time", .num (round2 total_processing_time)),
                ("processed_items", .arr processed_items),
                ("success", .bool true)])

/-- The value of `yield context.task_all(...)`: the in-order result list,
unless some child failed, in which case the first failure re-raises at
the `yield`. -/
def seqE : List CompR → Except String (List Val)
  | [] => .ok []
  | .error e :: _ => .error e
  | .ok v :: rest => do
    let vs ← seqE rest
    pure (v :: vs)

/-- `fan_out_fan_in_orchestrator`: fan out one `process_work_item` call
per work item, `task_all` the batch (its first child failure re-raises at
the `yield`, uncaught), then call `aggregate_results` on the in-order
results. -/
def fan_out_fan_in_orchestrator (work_items : List Val) : OrchM :=
  .call (work_items.map fun item => ⟨"process_work_item", item⟩) fun results =>
    match seqE results with
    | .error e => .fail e
    | .ok vs =>
      call1 ⟨"aggregate_results", .arr vs⟩ fun r =>
        match r with
        | .ok v => .ret v
        | .error e => .fail e

/-- Modelled from the spec: the engine-side fan-in of a `task_all`
composite — each child completion is slotted by its correlation id (the
submission index), a duplicate completion for an already-filled slot is
ignored, and the composite resolves, with results in original submission
order, exactly when every slot is filled. -/
def fanIn (n : Nat) (arrivals : List (Nat × CompR)) : Option (List CompR) :=
  let slots := (List.range n).map fun i => ((arrivals.find? fun p => p.1 == i).map Prod.snd)
  if slots.all Option.isSome then some slots.reduceOption else none

theorem fanIn_perm (l : List CompR) (arrivals : List (Nat × CompR))
    (hp : arrivals.Perm l.enum) : fanIn l.length arrivals = some l := by
  have hfind : ∀ i : Nat, ∀ hi : i < l.length,
      arrivals.find? (fun p => p.1 == i) = some (i, l[i]) := by
    intro i hi
    have hmem : (i, l[i]) ∈ arrivals := by
      refine hp.mem_iff.mpr ?_
      exact List.mk_mem_enum_iff_getElem?.mpr (List.getElem?_eq_getElem hi)
    have hsome : (arrivals.find? (fun p => p.1 == i)).isSome := by
      rw [List.find?_isSome]
      exact ⟨(i, l[i]), hmem, by simp⟩
    obtain ⟨p, hfp⟩ := Option.isSome_iff_exists.mp hsome
    obtain ⟨a, b⟩ := p
    have hpmem : (a, b) ∈ l.enum := hp.mem_iff.mp (List.mem_of_find?_eq_some hfp)
    have hp1 : a = i := by simpa using List.find?_some hfp
    subst hp1
    have hx : l[a]? = some b := List.mk_mem_enum_iff_getElem?.mp hpmem
    rw [List.getElem?_eq_getElem hi, Option.some.injEq] at hx
    rw [hfp, hx]
  have hslots : (List.range l.length).map
      (fun i => ((arrivals.find? fun p => p.1 == i).map Prod.snd)) = l.map some := by
    apply List.ext_getElem (by simp)
    intro i h1 h2
    simp only [List.getElem_map, List.getElem_range]
    rw [hfind i (by simpa using h2)]
    simp
  have hro : ∀ t : List CompR, (t.map some).reduceOption = t := by
    intro t
    induction t with
    | nil => rfl
    | cons a t iht => simp [List.reduceOption_cons_of_some, iht]
  unfold fanIn
  rw [hslots]
  simp [List.all_eq_true, hro]
/-- A well-formed `process_work_item` result: numeric `"value"` and
`"processing_time"` fields and a present `"result"` field — the shape the
`process_work_item` activity always produces. -/
def isNumAt (r : Val) (k : String) : Bool :=
  match r.get? k with
  | some (.num _) => true
  | _ => false

def wfItem (r : Val) : Bool :=
  isNumAt r "value" && isNumAt r "processing_time" && (r.get? "result").isSome

/-- Numeric field content, defaulting to `0` (only used under `isNumAt`). -/
def numD : Option Val → ℚ
  | some (.num q) => q
  | _ => 0

@[simp] theorem ok_bind (a : α) (f : α → Except ε β) :
    (Except.ok a : Except ε α) >>= f = f a := rfl

@[simp] theorem fmap_ok (f : α → β) (a : α) :
    f <$> (Except.ok a : Except ε α) = Except.ok (f a) := rfl

/-- Sum of the `"value"` fields. -/
def aggValue (rs : List Val) : ℚ := (rs.map fun r => numD (r.get? "value")).sum

/-- Sum of the `"processing_time"` fields. -/
def aggTime (rs : List Val) : ℚ := (rs.map fun r => numD (r.get? "processing_time")).sum

/-- The `"result"` fields, in order. -/
def aggItems (rs : List Val) : List Val := rs.map fun r => (r.get? "result").getD .null

theorem mapE_getNum (k : String) : ∀ rs : List Val, (∀ r ∈ rs, isNumAt r k = true) →
    mapE (fun r => getNum r k) rs = .ok (rs.map fun r => numD (r.get? k)) := by
  intro rs
  induction rs with
  | nil => intro _; rfl
  | cons a t ih =>
    intro h
    have ha := h a (List.mem_cons_self a t)
    have ht := ih fun r hr => h r (List.mem_cons_of_mem a hr)
    rcases hk : a.get? k with _ | w
    · rw [isNumAt, hk] at ha; simp at ha
    · cases w <;> rw [isNumAt, hk] at ha <;> try simp at ha
      case num q =>
      have hga : getNum a k = .ok q := by rw [getNum, hk]
      simp [mapE, hga, ht, numD, hk]

theorem mapE_getItem : ∀ rs : List Val, (∀ r ∈ rs, (r.get? "result").isSome = true) →
    mapE (fun r => getItem r "result") rs = .ok (aggItems rs) := by
  intro rs
  induction rs with
  | nil => intro _; rfl
  | cons a t ih =>
    intro h
    have ha := h a (List.mem_cons_self a t)
    have ht := ih fun r hr => h r (List.mem_cons_of_mem a hr)
    rcases hk : a.get? "result" with _ | w
    · rw [hk] at ha; simp at ha
    · have hga : getItem a "result" = .ok w := by rw [getItem, hk]
      simp [mapE, hga, ht, aggItems, hk]

/-- On a non-empty list of well-formed items, `aggregate_results` returns
the aggregate record of the source. -/
theorem aggregate_results_ok (rs : List Val) (hne : rs ≠ [])
    (hw : ∀ r ∈ rs, wfItem r = true) :
    aggregate_results rs = .ok (.obj
      [("total_items_processed", .num rs.length),
       ("total_value", .num (aggValue rs)),
       ("average_value", .num (round2 (aggValue rs / rs.length))),
       ("total_processing_time", .num (round2 (aggTime rs))),
       ("processed_items", .arr (aggItems rs)),
       ("success", .bool true)]) := by
  have hv : ∀ r ∈ rs, isNumAt r "value" = true := by
    intro r hr; have := hw r hr; rw [wfItem] at this; simp at this; exact this.1.1
  have hp : ∀ r ∈ rs, isNumAt r "processing_time" = true := by
    intro r hr; have := hw r hr; rw [wfItem] at this; simp at this; exact this.1.2
  have hi : ∀ r ∈ rs, (r.get? "result").isSome = true := by
    intro r hr; have := hw r hr; rw [wfItem] at this; simp at this; exact this.2
  have hlen : rs.length ≠ 0 := fun hz => hne (List.length_eq_zero.mp hz)
  simp [aggregate_results, sumField, mapE_getNum _ rs hv, mapE_getNum _ rs hp,
        mapE_getItem rs hi, hlen, aggValue, aggTime]
theorem seqE_map_ok : ∀ vs : List Val, seqE (vs.map Except.ok) = .ok vs := by
  intro vs
  induction vs with
  | nil => rfl
  | cons v t ih => simp [seqE, ih]

/-- C1: the registered orchestrators are deterministic: a run is a pure
function of the input and the injected completion values, so re-running
`travel_booking_saga` or `fan_out_fan_in_orchestrator` against the
history recorded by any run reproduces exactly the previously scheduled
batches of actions (same activity names and inputs, in the same order),
and replaying the complete history of a finished run a second time
dispatches an empty set of new actions. -/
theorem registered_orchestrators_deterministic :
    (∀ (input : Val) (injs : List Inj),
        replayActs (travel_booking_saga input) (histOf (travel_booking_saga input) injs)
          = runActs (travel_booking_saga input) injs
        ∧ ((runOut (travel_booking_saga input) injs).isSome →
            newActions (travel_booking_saga input)
              (histOf (travel_booking_saga input) injs) = []))
    ∧ (∀ (work_items : List Val) (injs : List Inj),
        replayActs (fan_out_fan_in_orchestrator work_items)
            (histOf (fan_out_fan_in_orchestrator work_items) injs)
          = runActs (fan_out_fan_in_orchestrator work_items) injs
        ∧ ((runOut (fan_out_fan_in_orchestrator work_items) injs).isSome →
            newActions (fan_out_fan_in_orchestrator work_items)
              (histOf (fan_out_fan_in_orchestrator work_items) injs) = [])) :=
  ⟨fun input injs =>
      ⟨replayActs_histOf injs (travel_booking_saga input),
       newActions_histOf_complete injs (travel_booking_saga input)⟩,
   fun work_items injs =>
      ⟨replayActs_histOf injs (fan_out_fan_in_orchestrator work_items),
       newActions_histOf_complete injs (fan_out_fan_in_orchestrator work_items)⟩⟩

/-- Witness for `registered_orchestrators_deterministic` on a concrete
completed saga run. -/
theorem registered_orchestrators_deterministic_witness :
    newActions (travel_booking_saga (.obj [("destination", .str "Oslo")]))
      (histOf (travel_booking_saga (.obj [("destination", .str "Oslo")]))
        [.comps [.ok (.obj [("confirmation", .str "F")])],
         .comps [.ok (.obj [("confirmation", .str "H")])],
         .comps [.ok (.obj [("confirmation", .str "C")])]]) = [] :=
  (registered_orchestrators_deterministic.1 (.obj [("destination", .str "Oslo")])
    [.comps [.ok (.obj [("confirmation", .str "F")])],
     .comps [.ok (.obj [("confirmation", .str "H")])],
     .comps [.ok (.obj [("confirmation", .str "C")])]]).2 rfl

/-- C4: for a non-empty list of work items the orchestrator submits one
`process_work_item` activity per item, in submission order; the engine's
fan-in resolves any arrival order (any permutation of the indexed child
completions) to the original submission order; and `aggregate_results`
on the in-order results lists the `"result"` field of every item in
submission order and totals the `"value"` fields. -/
theorem fan_out_fan_in_order_preservation
    (work_items results : List Val) (arrivals : List (ℕ × CompR))
    (hne : work_items ≠ [])
    (hlen : results.length = work_items.length)
    (hperm : arrivals.Perm ((results.map Except.ok).enum))
    (hw : ∀ r ∈ results, wfItem r = true) :
    runActs (fan_out_fan_in_orchestrator work_items) []
        = [work_items.map fun item => ⟨"process_work_item", item⟩]
    ∧ fanIn work_items.length arrivals = some (results.map Except.ok)
    ∧ runActs (fan_out_fan_in_orchestrator work_items) [.comps (results.map Except.ok)]
        = [work_items.map fun item => ⟨"process_work_item", item⟩,
           [⟨"aggregate_results", .arr results⟩]]
    ∧ ∃ agg : Val, aggregate_results results = .ok agg
        ∧ agg.get? "processed_items" = some (.arr (aggItems results))
        ∧ agg.get? "total_value" = some (.num (aggValue results)) := by
  have hne' : results ≠ [] := by
    intro hz
    apply hne
    have := hlen
    rw [hz] at this
    exact (List.length_eq_zero.mp this.symm)
  refine ⟨rfl, ?_, ?_, ?_⟩
  · have := fanIn_perm (results.map Except.ok) arrivals hperm
    rwa [List.length_map, hlen] at this
  · simp [runActs, runTrace, fan_out_fan_in_orchestrator, seqE_map_ok, call1]
  · exact ⟨_, aggregate_results_ok results hne' hw, rfl, rfl⟩

/-- Witness for `fan_out_fan_in_order_preservation`: two work items whose
completions arrive in reversed order. -/
theorem fan_out_fan_in_order_preservation_witness :
    fanIn 2 [(1, Except.ok (.obj [("result", .str "Processed_B"), ("value", .num 7),
                                  ("processing_time", .num 1)])),
             (0, Except.ok (.obj [("result", .str "Processed_A"), ("value", .num 5),
                                  ("processing_time", .num 2)]))]
      = some [Except.ok (.obj [("result", .str "Processed_A"), ("value", .num 5),
                               ("processing_time", .num 2)]),
              Except.ok (.obj [("result", .str "Processed_B"), ("value", .num 7),
                               ("processing_time", .num 1)])]
    ∧ ∃ agg : Val,
        aggregate_results
            [.obj [("result", .str "Processed_A"), ("value", .num 5), ("processing_time", .num 2)],
             .obj [("result", .str "Processed_B"), ("value", .num 7), ("processing_time", .num 1)]]
          = .ok agg
        ∧ agg.get? "processed_items"
            = some (.arr (aggItems
                [.obj [("result", .str "Processed_A"), ("value", .num 5), ("processing_time", .num 2)],
                 .obj [("result", .str "Processed_B"), ("value", .num 7), ("processing_time", .num 1)]]))
        ∧ agg.get? "total_value"
            = some (.num (aggValue
                [.obj [("result", .str "Processed_A"), ("value", .num 5), ("processing_time", .num 2)],
                 .obj [("result", .str "Processed_B"), ("value", .num 7), ("processing_time", .num 1)]])) := by
  have h := fan_out_fan_in_order_preservation
    [.str "A", .str "B"]
    [.obj [("result", .str "Processed_A"), ("value", .num 5), ("processing_time", .num 2)],
     .obj [("result", .str "Processed_B"), ("value", .num 7), ("processing_time", .num 1)]]
    [(1, Except.ok (.obj [("result", .str "Processed_B"), ("value", .num 7),
                          ("processing_time", .num 1)])),
     (0, Except.ok (.obj [("result", .str "Processed_A"), ("value", .num 5),
                          ("processing_time", .num 2)]))]
    (by simp) rfl (by exact List.Perm.swap _ _ _)
    (by intro r hr
        simp only [List.mem_cons, List.not_mem_nil, or_false] at hr
        rcases hr with h | h <;> subst h <;> rfl)
  exact ⟨h.2.1, h.2.2.2⟩

/-- The work-item list the HTTP trigger passes to the orchestration:
`req_body.get("workItems", default)` with no emptiness check. -/
def http_start_work_items (req_body : Option Val) : Val :=
  let defaultItems : Val := .arr [.str "Item1", .str "Item2", .str "Item3",
                                  .str "Item4", .str "Item5"]
  match req_body with
  | none => defaultItems
  | some body => body.getD "workItems" defaultItems

/-- C8: `aggregate_results` is total only on non-empty input — on any
non-empty list of well-formed items it succeeds with
`total_items_processed` the length and `average_value` the rounded mean,
but on the empty list it raises `ZeroDivisionError`; and the empty list
is reachable: the HTTP trigger forwards a caller-supplied empty
`workItems` array unchecked, and the orchestration then feeds the empty
result list to `aggregate_results`. -/
theorem aggregate_results_empty_unsafe :
    (∀ rs : List Val, rs ≠ [] → (∀ r ∈ rs, wfItem r = true) →
      ∃ agg : Val, aggregate_results rs = .ok agg
        ∧ agg.get? "total_items_processed" = some (.num rs.length)
        ∧ agg.get? "average_value" = some (.num (round2 (aggValue rs / rs.length))))
    ∧ aggregate_results [] = .error "ZeroDivisionError: division by zero"
    ∧ http_start_work_items (some (.obj [("workItems", .arr [])])) = .arr []
    ∧ runActs (fan_out_fan_in_orchestrator []) [.comps []]
        = [[], [⟨"aggregate_results", .arr []⟩]] := by
  refine ⟨?_, rfl, rfl, rfl⟩
  intro rs hne hw
  exact ⟨_, aggregate_results_ok rs hne hw, rfl, rfl⟩

/-- Witness for `aggregate_results_empty_unsafe` on a one-item list. -/
theorem aggregate_results_empty_unsafe_witness :
    ∃ agg : Val,
      aggregate_results [.obj [("result", .str "Processed_X"), ("value", .num 10),
                               ("processing_time", .num 1)]] = .ok agg
      ∧ agg.get? "total_items_processed" = some (.num 1)
      ∧ agg.get? "average_value" = some (.num (round2 (aggValue
          [.obj [("result", .str "Processed_X"), ("value", .num 10),
                 ("processing_time", .num 1)]] / 1))) := by
  have h := aggregate_results_empty_unsafe.1
    [.obj [("result", .str "Processed_X"), ("value", .num 10), ("processing_time", .num 1)]]
    (by simp)
    (by intro r hr
        simp only [List.mem_cons, List.not_mem_nil, or_false] at hr
        subst hr
        rfl)
  simpa using h
/-! ## Entities sample (`samples/durable-task-sdks/python/entities/worker.py`) -/

/-- Observable effect of one `counter` entity invocation: the sequence of
`ctx.set_state` calls it made and the operation's return value (`none`
models Python's implicit `None`). -/
structure EntityEffect where
  setCalls : List Int
  ret : Option Int

/-- The `counter` function-based entity: `ctx.get_state(int, 0)` reads the
stored state with default `0`; `add`/`subtract` call `set_state` with the
updated value, `get` returns the value without writing, `reset` calls
`set_state 0`; any other operation name matches no branch, writes nothing
and returns `None`. -/
def counter (operation : String) (stored : Option Int) (input : Int) : EntityEffect :=
  let state := stored.getD 0
  if operation = "add" then { setCalls := [state + input], ret := none }
  else if operation = "subtract" then { setCalls := [state - input], ret := none }
  else if operation = "get" then { setCalls := [], ret := some state }
  else if operation = "reset" then { setCalls := [(0 : Int)], ret := none }
  else { setCalls := [], ret := none }

/-- C10: `"get"` returns the current state and never calls `set_state`,
so entity state is unchanged by `"get"`; any operation name outside
`{"add", "subtract", "get", "reset"}` writes nothing and returns `None`;
and only `"add"`, `"subtract"` and `"reset"` ever write state. -/
theorem counter_get_frame :
    (∀ (stored : Option Int) (input : Int),
        (counter "get" stored input).setCalls = []
        ∧ (counter "get" stored input).ret = some (stored.getD 0))
    ∧ (∀ (op : String) (stored : Option Int) (input : Int),
        op ≠ "add" → op ≠ "subtract" → op ≠ "get" → op ≠ "reset" →
        (counter op stored input).setCalls = []
        ∧ (counter op stored input).ret = none)
    ∧ (∀ (op : String) (stored : Option Int) (input : Int),
        (counter op stored input).setCalls ≠ [] →
        op = "add" ∨ op = "subtract" ∨ op = "reset") := by
  refine ⟨?_, ?_, ?_⟩
  · intro stored input
    exact ⟨rfl, rfl⟩
  · intro op stored input h1 h2 h3 h4
    simp [counter, h1, h2, h3, h4]
  · intro op stored input h
    by_cases h1 : op = "add"
    · exact Or.inl h1
    by_cases h2 : op = "subtract"
    · exact Or.inr (Or.inl h2)
    by_cases h4 : op = "reset"
    · exact Or.inr (Or.inr h4)
    exfalso
    apply h
    by_cases h3 : op = "get" <;> simp [counter, h1, h2, h3, h4]

/-- Witness for `counter_get_frame` at the unknown operation `"noop"`. -/
theorem counter_get_frame_witness :
    (counter "noop" (some 42) 7).setCalls = []
    ∧ (counter "noop" (some 42) 7).ret = none :=
  counter_get_frame.2.1 "noop" (some 42) 7
    (by decide) (by decide) (by decide) (by decide)

/-! ## Status endpoints (fan-out/fan-in and eternal-orchestrations
`function_app.py`) -/

/-- The fields of the client-side status object
(`client.get_status(instance_id)`). -/
structure OrchestrationStatus where
  instance_id : String
  name : String
  runtime_status : String
  input_ : Val
  output : Val
  custom_status : Val
  created_time : Option String
  last_updated_time : Option String

/-- An HTTP response: status code and JSON body. -/
structure HttpResponse where
  status_code : ℕ
  body : Val

/-- `t.isoformat() if t else None`. -/
def isoOrNull : Option String → Val
  | some t => .str t
  | none => .null

/-- `get_orchestration_status` of the fan-out/fan-in sample: its 200
response body has no `customStatus` field. -/
def get_orchestration_status_fan_out (status : Option OrchestrationStatus) : HttpResponse :=
  match status with
  | some st =>
    ⟨200, .obj [("instanceId", .str st.instance_id), ("name", .str st.name),
                ("runtimeStatus", .str st.runtime_status), ("input", st.input_),
                ("output", st.output),
                ("createdTime", isoOrNull st.created_time),
                ("lastUpdatedTime", isoOrNull st.last_updated_time)]⟩
  | none => ⟨404, .obj [("error", .str "Orchestration not found")]⟩

/-- `get_orchestration_status` of the eternal-orchestrations sample: its
200 response body includes `customStatus`. -/
def get_orchestration_status_eternal (status : Option OrchestrationStatus) : HttpResponse :=
  match status with
  | some st =>
    ⟨200, .obj [("instanceId", .str st.instance_id), ("name", .str st.name),
                ("runtimeStatus", .str st.runtime_status), ("input", st.input_),
                ("output", st.output), ("customStatus", st.custom_status),
                ("createdTime", isoOrNull st.created_time),
                ("lastUpdatedTime", isoOrNull st.last_updated_time)]⟩
  | none => ⟨404, .obj [("error", .str "Orchestration not found")]⟩

/-- C7 counterexample: the fan-out/fan-in sample's status endpoint
returns a body with runtime status and output but with no `customStatus`
key at all, so not every HTTP status endpoint's JSON response includes
the custom status field. -/
theorem get_status_fan_out_missing_custom_status :
    (get_orchestration_status_fan_out (some
        ⟨"abc123", "fan_out_fan_in_orchestrator", "Completed", .null, .num 42,
         .str "my custom status", some "2024-01-01T00:00:00", none⟩)).body.get?
      "runtimeStatus" = some (.str "Completed")
    ∧ (get_orchestration_status_fan_out (some
        ⟨"abc123", "fan_out_fan_in_orchestrator", "Completed", .null, .num 42,
         .str "my custom status", some "2024-01-01T00:00:00", none⟩)).body.get?
      "output" = some (.num 42)
    ∧ (get_orchestration_status_fan_out (some
        ⟨"abc123", "fan_out_fan_in_orchestrator", "Completed", .null, .num 42,
         .str "my custom status", some "2024-01-01T00:00:00", none⟩)).body.get?
      "customStatus" = none :=
  ⟨rfl, rfl, rfl⟩

/-- C7 (amended): for every known instance the eternal-orchestrations
status endpoint returns runtime status, custom status and output, while
the fan-out/fan-in status endpoint returns runtime status and output but
omits the custom status field. -/
theorem get_status_fields (st : OrchestrationStatus) :
    (get_orchestration_status_eternal (some st)).body.get? "runtimeStatus"
        = some (.str st.runtime_status)
    ∧ (get_orchestration_status_eternal (some st)).body.get? "customStatus"
        = some st.custom_status
    ∧ (get_orchestration_status_eternal (some st)).body.get? "output" = some st.output
    ∧ (get_orchestration_status_fan_out (some st)).body.get? "runtimeStatus"
        = some (.str st.runtime_status)
    ∧ (get_orchestration_status_fan_out (some st)).body.get? "output" = some st.output
    ∧ (get_orchestration_status_fan_out (some st)).body.get? "customStatus" = none :=
  ⟨rfl, rfl, rfl, rfl, rfl, rfl⟩
/-! ## Versioning sample (`samples/durable-task-sdks/python/versioning/worker.py`) -/

/-- Comparison of an exhausted release against remaining components of
the other (zero-padding of PEP 440): equal while the rest is zeros. -/
def cmpZeros : List ℕ → Int
  | [] => 0
  | y :: ys => if y = 0 then cmpZeros ys else -1

/-- PEP 440 release comparison as used by `packaging.version` on plain
dotted numeric versions: compare componentwise, padding the shorter
release with zeros; returns -1/0/1. -/
def cmpRelease : List ℕ → List ℕ → Int
  | [], ys => cmpZeros ys
  | x :: xs, [] => if x = 0 then cmpRelease xs [] else 1
  | x :: xs, y :: ys => if x < y then -1 else if y < x then 1 else cmpRelease xs ys

/-- Split a character list on `'.'` (the behavior of `str.split('.')`). -/
def splitDots : List Char → List (List Char)
  | [] => [[]]
  | c :: rest =>
    if c = '.' then [] :: splitDots rest
    else
      match splitDots rest with
      | h :: t => (c :: h) :: t
      | [] => [[c]]

/-- Parse a non-empty all-digit component (the behavior of
`String.toNat?` / `int(...)` on a version component). -/
def natOfChars : List Char → Option ℕ
  | [] => none
  | cs => cs.foldl (fun acc c =>
      match acc with
      | none => none
      | some n => if c.isDigit then some (n * 10 + (c.toNat - 48)) else none) (some 0)

/-- Model of `packaging.version.parse` restricted to plain dotted numeric
release versions (`"1.0.0"`); anything else is treated as a parse
failure, sending `compare_version` to its string-comparison fallback. -/
def parseVersion (s : String) : Option (List ℕ) :=
  (splitDots s.toList).mapM natOfChars

/-- Python string comparison (`<`/`>` by code point) as -1/0/1. -/
def strCmpInt (a b : String) : Int :=
  match compare a b with
  | .lt => -1
  | .gt => 1
  | .eq => 0

/-- `compare_version` helper of the versioning worker: `None` is below
everything; otherwise compare parsed versions, falling back to plain
string comparison when parsing fails. -/
def compare_version (v1 : Option String) (v2 : String) : Int :=
  match v1 with
  | none => -1
  | some s =>
    match parseVersion s, parseVersion v2 with
    | some a, some b => cmpRelease a b
    | _, _ => strCmpInt s v2

theorem cmpZeros_replicate : ∀ k : ℕ, cmpZeros (List.replicate k 0) = 0 := by
  intro k
  induction k with
  | zero => rfl
  | succ k ih => simpa [List.replicate_succ, cmpZeros] using ih

theorem cmpRelease_zeros : ∀ (xs : List ℕ) (k : ℕ),
    0 ≤ cmpRelease xs (List.replicate k 0) := by
  intro xs
  induction xs with
  | nil =>
    intro k
    simp [cmpRelease, cmpZeros_replicate]
  | cons x t ih =>
    intro k
    cases k with
    | zero =>
      simp only [List.replicate, cmpRelease]
      rcases Nat.eq_zero_or_pos x with hx | hx
      · simpa [hx] using ih 0
      · simp [Nat.pos_iff_ne_zero.mp hx]
    | succ k =>
      simp only [List.replicate_succ, cmpRelease]
      rcases Nat.eq_zero_or_pos x with hx | hx
      · simpa [hx] using ih k
      · simp [Nat.not_lt_zero, hx, Nat.pos_iff_ne_zero.mp hx]

theorem cmpRelease_lt_two_lt_three (a : List ℕ) (h : cmpRelease a [2, 0, 0] < 0) :
    cmpRelease a [3, 0, 0] < 0 := by
  cases a with
  | nil => decide
  | cons x xs =>
    simp only [cmpRelease] at h ⊢
    rcases lt_trichotomy x 2 with hx | hx | hx
    · simp [hx, show x < 3 by omega]
    · subst hx
      simp only [lt_irrefl, if_neg, if_false] at h
      have := cmpRelease_zeros xs 2
      simp only [show List.replicate 2 0 = [0, 0] from rfl] at this
      omega
    · simp [show ¬ x < 2 by omega, hx] at h

theorem compare_version_below_two (ver : Option String)
    (hv : ver = none ∨ ∃ s rel, ver = some s ∧ parseVersion s = some rel
        ∧ cmpRelease rel [2, 0, 0] < 0) :
    compare_version ver "2.0.0" < 0 ∧ compare_version ver "3.0.0" < 0 := by
  rcases hv with hnone | ⟨s, rel, hs, hparse, hlt⟩
  · subst hnone
    exact ⟨by decide, by decide⟩
  · subst hs
    have h2 : parseVersion "2.0.0" = some [2, 0, 0] := by decide
    have h3 : parseVersion "3.0.0" = some [3, 0, 0] := by decide
    constructor
    · simp [compare_version, hparse, h2, hlt]
    · simp [compare_version, hparse, h3, cmpRelease_lt_two_lt_three rel hlt]
/-- The result dict of `versioned_orchestration`. -/
def versionedResult (ver : Option String) (results : List Val) : Val :=
  .obj [("version", match ver with | some s => .str s | none => .null),
        ("results", .arr results)]

/-- The second version gate of `versioned_orchestration` (v3.0.0+ adds
`send_notification`), reached with the results accumulated so far. -/
def versionedTail (ver : Option String) (name : String) (results : List Val) : OrchM :=
  if compare_version ver "3.0.0" ≥ 0 then
    call1 ⟨"send_notification", .str ("Completed greeting workflow for " ++ name)⟩ fun r =>
      match r with
      | .error e => .fail e
      | .ok notification_result => .ret (versionedResult ver (results ++ [notification_result]))
  else .ret (versionedResult ver results)

/-- `versioned_orchestration`: always `say_hello`; `say_goodbye` iff the
instance's injected version tag compares `≥ "2.0.0"`; `send_notification`
iff it compares `≥ "3.0.0"` — both branches decided by `compare_version`
on `ctx.version` only (the embedding has no ambient deployed-code
version at all). -/
def versioned_orchestration (ver : Option String) (name : String) : OrchM :=
  call1 ⟨"say_hello", .str name⟩ fun r =>
    match r with
    | .error e => .fail e
    | .ok hello_result =>
      if compare_version ver "2.0.0" ≥ 0 then
        call1 ⟨"say_goodbye", .str name⟩ fun r2 =>
          match r2 with
          | .error e => .fail e
          | .ok goodbye_result => versionedTail ver name ([hello_result] ++ [goodbye_result])
      else versionedTail ver name [hello_result]

/-- C5: an instance whose fixed version tag is `None` or parses strictly
below `"2.0.0"` never requests `say_goodbye` or `send_notification`
(whatever resumption data is injected, `say_hello` is the only scheduled
action) and its result list contains exactly the hello greeting; a tag
comparing at or above `"2.0.0"` (resp. `"3.0.0"`) additionally invokes
`say_goodbye` (resp. `send_notification`); the branch taken is decided
solely by `compare_version` on the injected tag. -/
theorem versioned_orchestration_gate :
    (∀ (ver : Option String) (name : String),
      (ver = none ∨ ∃ s rel, ver = some s ∧ parseVersion s = some rel
          ∧ cmpRelease rel [2, 0, 0] < 0) →
      (∀ injs : List Inj,
          runActs (versioned_orchestration ver name) injs = [[⟨"say_hello", .str name⟩]])
      ∧ ∀ h : Val,
          runOut (versioned_orchestration ver name) [.comps [.ok h]]
            = some (.done (versionedResult ver [h])))
    ∧ (∀ (ver : Option String) (name : String) (h g : Val),
        compare_version ver "2.0.0" ≥ 0 → compare_version ver "3.0.0" < 0 →
        runTrace (versioned_orchestration ver name) [.comps [.ok h], .comps [.ok g]]
          = ([[⟨"say_hello", .str name⟩], [⟨"say_goodbye", .str name⟩]],
             some (.done (versionedResult ver [h, g]))))
    ∧ (∀ (ver : Option String) (name : String) (h g w : Val),
        compare_version ver "2.0.0" ≥ 0 → compare_version ver "3.0.0" ≥ 0 →
        runTrace (versioned_orchestration ver name)
            [.comps [.ok h], .comps [.ok g], .comps [.ok w]]
          = ([[⟨"say_hello", .str name⟩], [⟨"say_goodbye", .str name⟩],
              [⟨"send_notification", .str ("Completed greeting workflow for " ++ name)⟩]],
             some (.done (versionedResult ver [h, g, w]))))
    ∧ (∀ (ver : Option String) (name : String) (h w : Val),
        compare_version ver "2.0.0" < 0 → compare_version ver "3.0.0" ≥ 0 →
        runTrace (versioned_orchestration ver name) [.comps [.ok h], .comps [.ok w]]
          = ([[⟨"say_hello", .str name⟩],
              [⟨"send_notification", .str ("Completed greeting workflow for " ++ name)⟩]],
             some (.done (versionedResult ver [h, w])))) := by
  refine ⟨?_, ?_, ?_, ?_⟩
  · intro ver name hv
    obtain ⟨h2, h3⟩ := compare_version_below_two ver hv
    have h2' : ¬ compare_version ver "2.0.0" ≥ 0 := not_le.mpr h2
    have h3' : ¬ compare_version ver "3.0.0" ≥ 0 := not_le.mpr h3
    constructor
    · intro injs
      cases injs with
      | nil => rfl
      | cons i rest =>
        cases i with
        | event _ => rfl
        | comps rs =>
          simp only [runActs, runTrace, versioned_orchestration, call1]
          cases hr : rs.headD (.error "missing result") with
          | error e => simp [hr, runTrace]
          | ok h => simp [hr, h2', h3', versionedTail, runTrace]
    · intro h
      simp [runOut, runTrace, versioned_orchestration, call1, h2', h3', versionedTail]
  · intro ver name h g h2 h3
    have h3' : ¬ compare_version ver "3.0.0" ≥ 0 := not_le.mpr h3
    simp [runTrace, versioned_orchestration, call1, h2, h3', versionedTail]
  · intro ver name h g w h2 h3
    simp [runTrace, versioned_orchestration, call1, h2, h3, versionedTail]
  · intro ver name h w h2 h3
    have h2' : ¬ compare_version ver "2.0.0" ≥ 0 := not_le.mpr h2
    simp [runTrace, versioned_orchestration, call1, h2', h3, versionedTail]

/-- Witness for `versioned_orchestration_gate`: a `"1.0.0"` instance only
greets, a `"3.0.0"` instance runs all three activities. -/
theorem versioned_orchestration_gate_witness :
    (runActs (versioned_orchestration (some "1.0.0") "Alice") [.comps [.ok (.str "Hello, Alice!")]]
        = [[⟨"say_hello", .str "Alice"⟩]]
      ∧ runOut (versioned_orchestration (some "1.0.0") "Alice") [.comps [.ok (.str "Hello, Alice!")]]
        = some (.done (versionedResult (some "1.0.0") [.str "Hello, Alice!"])))
    ∧ runTrace (versioned_orchestration (some "3.0.0") "Alice")
        [.comps [.ok (.str "Hello, Alice!")], .comps [.ok (.str "Goodbye, Alice!")],
         .comps [.ok (.str "Notification sent: Completed greeting workflow for Alice")]]
      = ([[⟨"say_hello", .str "Alice"⟩], [⟨"say_goodbye", .str "Alice"⟩],
          [⟨"send_notification", .str "Completed greeting workflow for Alice"⟩]],
         some (.done (versionedResult (some "3.0.0")
           [.str "Hello, Alice!", .str "Goodbye, Alice!",
            .str "Notification sent: Completed greeting workflow for Alice"]))) := by
  have hbelow := versioned_orchestration_gate.1 (some "1.0.0") "Alice"
    (Or.inr ⟨"1.0.0", [1, 0, 0], rfl, by decide, by decide⟩)
  have hv3 := versioned_orchestration_gate.2.2.1 (some "3.0.0") "Alice"
    (.str "Hello, Alice!") (.str "Goodbye, Alice!")
    (.str "Notification sent: Completed greeting workflow for Alice")
    (by decide) (by decide)
  exact ⟨⟨hbelow.1 [.comps [.ok (.str "Hello, Alice!")]], hbelow.2 (.str "Hello, Alice!")⟩, hv3⟩
/-! ## Eternal-orchestrations sample
(`samples/durable-functions/python/eternal-orchestrations/function_app.py`) -/

/-- The `execute_periodic_task` call of one pass: input is
`{**config, "iteration": current_iteration}`. -/
def execAction (config : Val) : Action :=
  ⟨"execute_periodic_task", config.set "iteration" (config.getD "current_iteration" (.num 1))⟩

/-- The `wait_for_interval` call of one pass. -/
def waitAction (config : Val) : Action :=
  ⟨"wait_for_interval", .obj [("interval_minutes", config.getD "interval_minutes" (.num 2))]⟩

/-- One pass of `eternal_orchestrator`: read `current_iteration`
(default 1) and `max_iterations` (default 5), set custom status (reading
`config["task_type"]`, a `KeyError` when absent), run
`execute_periodic_task` once, then either return the terminal result when
`current_iteration >= max_iterations`, or run `wait_for_interval` and
`continue_as_new` with `current_iteration` incremented by one. -/
def eternal_orchestrator (config : Val) : OrchM :=
  match config.get? "task_type" with
  | none => .fail "KeyError: 'task_type'"
  | some _ =>
    call1 (execAction config) fun r =>
      match r with
      | .error e => .fail e
      | .ok task_result =>
        match config.getD "current_iteration" (.num 1),
              config.getD "max_iterations" (.num 5) with
        | .num cur, .num mx =>
          if mx ≤ cur then
            .ret (.obj [("status", .str "completed"), ("total_iterations", .num cur),
                        ("final_result", task_result)])
          else
            call1 (waitAction config) fun r2 =>
              match r2 with
              | .error e => .fail e
              | .ok _ => .contAsNew (config.set "current_iteration" (.num (cur + 1)))
        | _, _ => .fail "TypeError: '>=' not supported"

/-- Every pass schedules at most the task batch and the wait batch, the
task batch first. -/
theorem eternal_trace_shape (config : Val) (tt : Val)
    (htt : config.get? "task_type" = some tt) :
    ∀ injs : List Inj,
      runActs (eternal_orchestrator config) injs = [[execAction config]]
      ∨ runActs (eternal_orchestrator config) injs
          = [[execAction config], [waitAction config]] := by
  intro injs
  cases injs with
  | nil => left; simp [runActs, runTrace, eternal_orchestrator, htt, call1]
  | cons i rest =>
    cases i with
    | event _ => left; simp [runActs, runTrace, eternal_orchestrator, htt, call1]
    | comps rs =>
      simp only [runActs, runTrace, eternal_orchestrator, htt, call1]
      cases hr : rs.headD (.error "missing result") with
      | error e => left; simp [hr, runTrace]
      | ok t =>
        simp only [hr]
        rcases hcur : config.getD "current_iteration" (.num 1) with _ | b | cur | s | xs | fs <;>
          rcases hmx : config.getD "max_iterations" (.num 5) with _ | b2 | mx | s2 | xs2 | fs2 <;>
            try (left; simp [runTrace]; done)
        by_cases hle : mx ≤ cur
        · left; simp [hle, runTrace]
        · simp only [hle, if_false]
          cases rest with
          | nil => right; simp [runTrace, call1]
          | cons i2 rest2 =>
            cases i2 with
            | event _ => right; simp [runTrace, call1]
            | comps rs2 =>
              simp only [runTrace, call1]
              cases hr2 : rs2.headD (.error "missing result") with
              | error e => right; simp [hr2, runTrace]
              | ok w => right; simp [hr2, runTrace]

/-- Pass outcome when the iteration cap is reached: the terminal result. -/
theorem eternal_pass_done (config : Val) (cur mx : ℚ) (t tt : Val)
    (htt : config.get? "task_type" = some tt)
    (hc : config.getD "current_iteration" (.num 1) = .num cur)
    (hm : config.getD "max_iterations" (.num 5) = .num mx)
    (hge : mx ≤ cur) :
    ∀ rest : List Inj,
    runOut (eternal_orchestrator config) (.comps [.ok t] :: rest)
      = some (.done (.obj [("status", .str "completed"), ("total_iterations", .num cur),
                           ("final_result", t)])) := by
  intro rest
  simp [runOut, runTrace, eternal_orchestrator, htt, call1, hc, hm, hge]

/-- Pass outcome below the cap: `continue_as_new` with
`current_iteration` incremented by exactly one. -/
theorem eternal_pass_continue (config : Val) (cur mx : ℚ) (t w tt : Val)
    (htt : config.get? "task_type" = some tt)
    (hc : config.getD "current_iteration" (.num 1) = .num cur)
    (hm : config.getD "max_iterations" (.num 5) = .num mx)
    (hlt : cur < mx) :
    ∀ rest : List Inj,
    runOut (eternal_orchestrator config) (.comps [.ok t] :: .comps [.ok w] :: rest)
      = some (.continued (config.set "current_iteration" (.num (cur + 1)))) := by
  intro rest
  simp [runOut, runTrace, eternal_orchestrator, htt, call1, hc, hm, not_le.mpr hlt]

theorem lookup_setField_self : ∀ (fs : List (String × Val)) (k : String) (v : Val),
    List.lookup k (Val.setField fs k v) = some v := by
  intro fs k v
  induction fs with
  | nil => simp [Val.setField, List.lookup]
  | cons p rest ih =>
    obtain ⟨k', v'⟩ := p
    by_cases hk : k' = k
    · simp [Val.setField, hk, List.lookup]
    · have hb : (k == k') = false := beq_eq_false_iff_ne.mpr fun he => hk he.symm
      simp [Val.setField, hk, List.lookup, hb, ih]

theorem lookup_setField_other : ∀ (fs : List (String × Val)) (k k' : String) (v : Val),
    k' ≠ k → List.lookup k' (Val.setField fs k v) = List.lookup k' fs := by
  intro fs k k' v hne
  have hb : (k' == k) = false := beq_eq_false_iff_ne.mpr hne
  induction fs with
  | nil => simp [Val.setField, List.lookup, hb]
  | cons p rest ih =>
    obtain ⟨k0, v0⟩ := p
    by_cases hk : k0 = k
    · subst hk
      simp [Val.setField, List.lookup, hb]
    · simp only [Val.setField, if_neg hk, List.lookup]
      by_cases h0 : k' = k0
      · subst h0
        simp [List.lookup]
      · have hb0 : (k' == k0) = false := beq_eq_false_iff_ne.mpr h0
        simp [List.lookup, hb0, ih]
/-- The continuation chain with every activity succeeding: one
`eternal_orchestrator` pass per fuel unit, re-entered on
`continue_as_new` with the new input. -/
def chainSteps : ℕ → Val → (ℕ → Val) → (ℕ → Val) → ℕ → Option Val
  | 0, _, _, _, _ => none
  | fuel + 1, config, taskRes, waitRes, step =>
    match runOut (eternal_orchestrator config)
        [.comps [.ok (taskRes step)], .comps [.ok (waitRes step)]] with
    | some (.done v) => some v
    | some (.continued c) => chainSteps fuel c taskRes waitRes (step + 1)
    | _ => none

theorem eternal_chain (taskRes waitRes : ℕ → Val) :
    ∀ (d i m : ℕ) (fs : List (String × Val)) (step : ℕ) (tt : Val),
      1 ≤ i → i ≤ m → m - i = d →
      (Val.obj fs).getD "current_iteration" (.num 1) = .num i →
      (Val.obj fs).getD "max_iterations" (.num 5) = .num m →
      (Val.obj fs).get? "task_type" = some tt →
      (chainSteps (d + 1) (.obj fs) taskRes waitRes step).isSome
      ∧ chainSteps d (.obj fs) taskRes waitRes step = none := by
  intro d
  induction d with
  | zero =>
    intro i m fs step tt h1 him hd hc hm htt
    have him' : m = i := by omega
    subst him'
    have hdone := eternal_pass_done (.obj fs) m m (taskRes step) tt htt hc hm (le_refl _)
      [.comps [.ok (waitRes step)]]
    refine ⟨?_, rfl⟩
    simp [chainSteps, hdone]
  | succ d ih =>
    intro i m fs step tt h1 him hd hc hm htt
    have hlt : (i : ℚ) < m := by exact_mod_cast (by omega : i < m)
    have hcont := eternal_pass_continue (.obj fs) i m (taskRes step) (waitRes step) tt
      htt hc hm hlt []
    have hcast : ((i + 1 : ℕ) : ℚ) = (i : ℚ) + 1 := by push_cast; ring
    have hc' : (Val.obj (Val.setField fs "current_iteration" (.num ((i : ℚ) + 1)))).getD
        "current_iteration" (.num 1) = .num ((i + 1 : ℕ)) := by
      simp [Val.getD, Val.get?, lookup_setField_self, hcast]
    have hm' : (Val.obj (Val.setField fs "current_iteration" (.num ((i : ℚ) + 1)))).getD
        "max_iterations" (.num 5) = .num m := by
      have hne : "max_iterations" ≠ "current_iteration" := by decide
      simpa [Val.getD, Val.get?, lookup_setField_other fs "current_iteration" "max_iterations"
        (.num ((i : ℚ) + 1)) hne] using hm
    have htt' : (Val.obj (Val.setField fs "current_iteration" (.num ((i : ℚ) + 1)))).get?
        "task_type" = some tt := by
      have hne : "task_type" ≠ "current_iteration" := by decide
      simpa [Val.get?, lookup_setField_other fs "current_iteration" "task_type"
        (.num ((i : ℚ) + 1)) hne] using htt
    obtain ⟨ih1, ih2⟩ := ih (i + 1) m
      (Val.setField fs "current_iteration" (.num ((i : ℚ) + 1))) (step + 1) tt
      (by omega) (by omega) (by omega) hc' hm' htt'
    constructor
    · simpa [chainSteps, hcont, Val.set] using ih1
    · simpa [chainSteps, hcont, Val.set] using ih2

/-- C6: each pass of `eternal_orchestrator` does a constant amount of
work — it schedules `execute_periodic_task` exactly once and at most two
activity batches in total, whatever the injected data, so per-turn
history length is bounded by a constant independent of the number of
prior continuations; a completed pass either returns the terminal result
exactly when `current_iteration >= max_iterations`, or continues-as-new
with `current_iteration` incremented by exactly 1; and from a fresh
config (no `current_iteration` yet) with integer `max_iterations = m ≥ 1`
the continuation chain terminates after exactly `m` passes. -/
theorem eternal_orchestrator_bounded_progress :
    (∀ (config tt : Val) (injs : List Inj), config.get? "task_type" = some tt →
        ((runActs (eternal_orchestrator config) injs).flatten.countP
            (fun a => a.name == "execute_periodic_task")) = 1
        ∧ (runActs (eternal_orchestrator config) injs).length ≤ 2)
    ∧ (∀ (config : Val) (cur mx : ℚ) (t w tt : Val),
        config.get? "task_type" = some tt →
        config.getD "current_iteration" (.num 1) = .num cur →
        config.getD "max_iterations" (.num 5) = .num mx →
        (mx ≤ cur → runOut (eternal_orchestrator config) [.comps [.ok t]]
            = some (.done (.obj [("status", .str "completed"), ("total_iterations", .num cur),
                                 ("final_result", t)])))
        ∧ (cur < mx → runOut (eternal_orchestrator config) [.comps [.ok t], .comps [.ok w]]
            = some (.continued (config.set "current_iteration" (.num (cur + 1))))))
    ∧ (∀ (fs : List (String × Val)) (m : ℕ) (taskRes waitRes : ℕ → Val) (tt : Val),
        1 ≤ m →
        List.lookup "current_iteration" fs = none →
        (Val.obj fs).getD "max_iterations" (.num 5) = .num m →
        (Val.obj fs).get? "task_type" = some tt →
        (chainSteps m (.obj fs) taskRes waitRes 0).isSome
        ∧ chainSteps (m - 1) (.obj fs) taskRes waitRes 0 = none) := by
  refine ⟨?_, ?_, ?_⟩
  · intro config tt injs htt
    rcases eternal_trace_shape config tt htt injs with hsh | hsh <;> rw [hsh] <;>
      simp [execAction, waitAction, List.countP_cons, List.countP_nil]
  · intro config cur mx t w tt htt hc hm
    constructor
    · intro hge
      have := eternal_pass_done config cur mx t tt htt hc hm hge []
      simpa using this
    · intro hlt
      have := eternal_pass_continue config cur mx t w tt htt hc hm hlt []
      simpa using this
  · intro fs m taskRes waitRes tt hm1 hcur hmx htt
    have hc1 : (Val.obj fs).getD "current_iteration" (.num 1) = .num ((1 : ℕ)) := by
      simp [Val.getD, Val.get?, hcur]
    have h := eternal_chain taskRes waitRes (m - 1) 1 m fs 0 tt (le_refl 1) hm1
      (by omega) hc1 hmx htt
    have hmeq : m - 1 + 1 = m := by omega
    rw [hmeq] at h
    exact h

/-- Witness for `eternal_orchestrator_bounded_progress` on a concrete
3-iteration configuration. -/
theorem eternal_orchestrator_bounded_progress_witness :
    ((runActs (eternal_orchestrator (.obj [("task_type", .str "health_check"),
          ("max_iterations", .num 3)])) [.comps [.ok .null]]).flatten.countP
        (fun a => a.name == "execute_periodic_task")) = 1
    ∧ runOut (eternal_orchestrator (.obj [("task_type", .str "health_check"),
          ("max_iterations", .num 3)])) [.comps [.ok .null], .comps [.ok .null]]
        = some (.continued ((Val.obj [("task_type", Val.str "health_check"),
            ("max_iterations", Val.num 3)]).set "current_iteration" (.num (1 + 1))))
    ∧ (chainSteps 3 (.obj [("task_type", .str "health_check"), ("max_iterations", .num 3)])
        (fun _ => .null) (fun _ => .null) 0).isSome
    ∧ chainSteps 2 (.obj [("task_type", .str "health_check"), ("max_iterations", .num 3)])
        (fun _ => .null) (fun _ => .null) 0 = none := by
  have h1 := (eternal_orchestrator_bounded_progress.1
    (.obj [("task_type", .str "health_check"), ("max_iterations", .num 3)])
    (.str "health_check") [.comps [.ok .null]] rfl).1
  have h2 := ((eternal_orchestrator_bounded_progress.2.1
    (.obj [("task_type", .str "health_check"), ("max_iterations", .num 3)])
    1 3 .null .null (.str "health_check") rfl rfl rfl).2 (by norm_num))
  have h3 := eternal_orchestrator_bounded_progress.2.2
    [("task_type", .str "health_check"), ("max_iterations", .num 3)]
    3 (fun _ => .null) (fun _ => .null) (.str "health_check")
    (by norm_num) rfl
    (by norm_num [Val.getD, Val.get?, List.lookup,
          show ("max_iterations" == "task_type") = false from rfl]) rfl
  exact ⟨h1, h2, h3.1, h3.2⟩
/-! ## Human-interaction sample
(`samples/durable-functions/python/human-interaction/function_app.py`) -/

/-- `'\x7b'`, the opening curly bracket character. -/
def lbrace : Char := Char.ofNat 123

/-- `'\x7d'`, the closing curly bracket character. -/
def rbrace : Char := Char.ofNat 125

/-- Skip JSON whitespace. -/
def skipWs : List Char → List Char
  | [] => []
  | c :: rest =>
    if c = ' ' ∨ c = Char.ofNat 10 ∨ c = Char.ofNat 9 ∨ c = Char.ofNat 13 then skipWs rest
    else c :: rest

/-- JSON string escapes (`\uXXXX` is not modelled). -/
def escChar (e : Char) : Option Char :=
  if e = '"' then some '"'
  else if e = '\\' then some '\\'
  else if e = '/' then some '/'
  else if e = 'n' then some (Char.ofNat 10)
  else if e = 't' then some (Char.ofNat 9)
  else if e = 'r' then some (Char.ofNat 13)
  else if e = 'b' then some (Char.ofNat 8)
  else if e = 'f' then some (Char.ofNat 12)
  else none

/-- Parse the remainder of a JSON string (after the opening quote). -/
def parseJString : List Char → Option (String × List Char)
  | [] => none
  | '"' :: rest => some ("", rest)
  | '\\' :: e :: rest =>
    match escChar e with
    | some ec => (parseJString rest).map fun p => (String.mk (ec :: p.1.toList), p.2)
    | none => none
  | '\\' :: [] => none
  | c :: rest => (parseJString rest).map fun p => (String.mk (c :: p.1.toList), p.2)

/-- Greedily take decimal digits. -/
def spanDigits : List Char → List Char × List Char
  | [] => ([], [])
  | c :: rest =>
    if c.isDigit then
      match spanDigits rest with
      | (ds, r) => (c :: ds, r)
    else ([], c :: rest)

def digitsToNat (ds : List Char) : ℕ := ds.foldl (fun n c => n * 10 + (c.toNat - 48)) 0

/-- Parse a JSON number (integer or decimal fraction; exponents are not
modelled). -/
def parseJNumber (cs : List Char) : Option (ℚ × List Char) :=
  let p := match cs with
    | '-' :: r => (true, r)
    | _ => (false, cs)
  match spanDigits p.2 with
  | ([], _) => none
  | (ds, rest) =>
    match rest with
    | '.' :: r2 =>
      match spanDigits r2 with
      | ([], _) => none
      | (fs, rest2) =>
        let q : ℚ := (digitsToNat ds : ℚ) + (digitsToNat fs : ℚ) / ((10 : ℚ) ^ fs.length)
        some (if p.1 then -q else q, rest2)
    | _ => some (if p.1 then -(digitsToNat ds : ℚ) else (digitsToNat ds : ℚ), rest)

mutual

/-- Fuel-bounded recursive-descent JSON value parser (model of
`json.loads`' grammar on objects, arrays, strings, numbers, booleans and
null). -/
def parseJVal : ℕ → List Char → Option (Val × List Char)
  | 0, _ => none
  | fuel + 1, cs =>
    match skipWs cs with
    | [] => none
    | c :: rest =>
      if c = '"' then (parseJString rest).map fun p => (Val.str p.1, p.2)
      else if c = lbrace then
        match skipWs rest with
        | c2 :: rest2 =>
          if c2 = rbrace then some (Val.obj [], rest2)
          else (parseJMembers fuel (c2 :: rest2)).map fun p => (Val.obj p.1, p.2)
        | [] => none
      else if c = '[' then
        match skipWs rest with
        | c2 :: rest2 =>
          if c2 = ']' then some (Val.arr [], rest2)
          else (parseJItems fuel (c2 :: rest2)).map fun p => (Val.arr p.1, p.2)
        | [] => none
      else if c = 't' then
        match rest with
        | 'r' :: 'u' :: 'e' :: r => some (Val.bool true, r)
        | _ => none
      else if c = 'f' then
        match rest with
        | 'a' :: 'l' :: 's' :: 'e' :: r => some (Val.bool false, r)
        | _ => none
      else if c = 'n' then
        match rest with
        | 'u' :: 'l' :: 'l' :: r => some (Val.null, r)
        | _ => none
      else (parseJNumber (c :: rest)).map fun p => (Val.num p.1, p.2)

/-- Object members, after the opening bracket of a non-empty object. -/
def parseJMembers : ℕ → List Char → Option (List (String × Val) × List Char)
  | 0, _ => none
  | fuel + 1, cs =>
    match skipWs cs with
    | c :: rest =>
      if c = '"' then
        match parseJString rest with
        | some (key, rest2) =>
          match skipWs rest2 with
          | ':' :: rest3 =>
            match parseJVal fuel rest3 with
            | some (v, rest4) =>
              match skipWs rest4 with
              | ',' :: rest5 => (parseJMembers fuel rest5).map fun p => ((key, v) :: p.1, p.2)
              | c5 :: rest5 => if c5 = rbrace then some ([(key, v)], rest5) else none
              | [] => none
            | none => none
          | _ => none
        | none => none
      else none
    | [] => none

/-- Array items, after the opening bracket of a non-empty array. -/
def parseJItems : ℕ → List Char → Option (List Val × List Char)
  | 0, _ => none
  | fuel + 1, cs =>
    match parseJVal fuel cs with
    | some (v, rest) =>
      match skipWs rest with
      | ',' :: rest2 => (parseJItems fuel rest2).map fun p => (v :: p.1, p.2)
      | ']' :: rest2 => some ([v], rest2)
      | _ => none
    | none => none

end

/-- `json.loads` model: parse one JSON value, requiring only trailing
whitespace after it. -/
def json_loads (s : String) : Option Val :=
  match parseJVal (s.length + 1) s.toList with
  | some (v, rest) => if (skipWs rest).isEmpty then some v else none
  | none => none
/-- The fallback `process_approval` call of the orchestrator's `except`
branch: response `None`, status `"error"`. -/
def approvalErrorCall (approval_request : Val) : OrchM :=
  call1 ⟨"process_approval", .obj [("approval_request", approval_request),
                                   ("approval_response", .null),
                                   ("status", .str "error")]⟩ fun r =>
    match r with
    | .ok result => .ret result
    | .error e => .fail e

/-- The main `process_approval` call inside the `try` block; if the
activity raises, the `except` branch retries with status `"error"`. -/
def approvalProcessCall (approval_request resp : Val) (status : String) : OrchM :=
  call1 ⟨"process_approval", .obj [("approval_request", approval_request),
                                   ("approval_response", resp),
                                   ("status", .str status)]⟩ fun r =>
    match r with
    | .ok result => .ret result
    | .error _ => approvalErrorCall approval_request

/-- `human_interaction_orchestrator` (with the engine-injected replay-
stable `instance_id` and frozen current time as parameters): build the
approval request from the input (a `KeyError` before any yield fails the
orchestration), notify via `send_approval_request` (outside the `try`
block, so its failure is uncaught), wait for the external
`"approval_response"` event, and process the response: a string payload
is parsed as JSON and, when parsing fails, silently replaced by
`{"approved": True, "approver": "unknown", "comments": "Parsed from
string"}`; a response without a usable `.get` (not a dict) trips the
`except` branch, which processes with status `"error"`; otherwise status
is `"approved"` when `response.get("approved")` is truthy, else
`"rejected"`. -/
def human_interaction_orchestrator (instance_id now_iso : String)
    (request_data : Val) : OrchM :=
  match request_data.get? "request_type", request_data.get? "amount",
        request_data.get? "requester", request_data.get? "description",
        request_data.get? "timeout_minutes" with
  | some request_type, some amount, some requester, some description, some timeout_minutes =>
    let approval_request : Val := .obj
      [("approval_id", .str instance_id), ("request_type", request_type),
       ("amount", amount), ("requester", requester), ("description", description),
       ("created_at", .str now_iso), ("timeout_minutes", timeout_minutes)]
    call1 ⟨"send_approval_request", approval_request⟩ fun r =>
      match r with
      | .error e => .fail e
      | .ok _ =>
        .waitEvent "approval_response" fun approval_response =>
          let resp : Val :=
            match approval_response with
            | .str s =>
              match json_loads s with
              | some v => v
              | none => .obj [("approved", .bool true), ("approver", .str "unknown"),
                              ("comments", .str "Parsed from string")]
            | v => v
          match resp with
          | .obj fields =>
            approvalProcessCall approval_request (.obj fields)
              (if ((Val.obj fields).getD "approved" .null).truthy then "approved"
               else "rejected")
          | _ => approvalErrorCall approval_request
  | _, _, _, _, _ => .fail "KeyError"

/-- C9: when the `"approval_response"` event delivers a string payload
that is not valid JSON, the orchestrator silently substitutes the default
response `{"approved": True, "approver": "unknown", "comments": "Parsed
from string"}` and schedules `process_approval` with status
`"approved"` — a malformed payload is treated as an approval. -/
theorem malformed_approval_treated_as_approved
    (instance_id now_iso : String) (request_data : Val)
    (request_type amount requester description timeout_minutes : Val)
    (h1 : request_data.get? "request_type" = some request_type)
    (h2 : request_data.get? "amount" = some amount)
    (h3 : request_data.get? "requester" = some requester)
    (h4 : request_data.get? "description" = some description)
    (h5 : request_data.get? "timeout_minutes" = some timeout_minutes)
    (s : String) (hbad : json_loads s = none) (sendResult : Val) :
    runTrace (human_interaction_orchestrator instance_id now_iso request_data)
        [.comps [.ok sendResult], .event (.str s)]
      = ([[⟨"send_approval_request", .obj
             [("approval_id", .str instance_id), ("request_type", request_type),
              ("amount", amount), ("requester", requester), ("description", description),
              ("created_at", .str now_iso), ("timeout_minutes", timeout_minutes)]⟩],
          [⟨"process_approval", .obj
             [("approval_request", .obj
                 [("approval_id", .str instance_id), ("request_type", request_type),
                  ("amount", amount), ("requester", requester), ("description", description),
                  ("created_at", .str now_iso), ("timeout_minutes", timeout_minutes)]),
              ("approval_response", .obj
                 [("approved", .bool true), ("approver", .str "unknown"),
                  ("comments", .str "Parsed from string")]),
              ("status", .str "approved")]⟩]],
         none) := by
  simp only [human_interaction_orchestrator, h1, h2, h3, h4, h5]
  simp only [call1, runTrace, hbad]
  simp [approvalProcessCall, call1, runTrace, Val.getD, Val.get?, Val.truthy, List.lookup]

/-- Witness for `malformed_approval_treated_as_approved` at the payload
`"not json"`. -/
theorem malformed_approval_treated_as_approved_witness :
    runTrace (human_interaction_orchestrator "inst-1" "2024-01-01T00:00:00"
        (.obj [("request_type", .str "expense_approval"), ("amount", .num 1500),
               ("requester", .str "john.doe@company.com"),
               ("description", .str "Business travel expenses"),
               ("timeout_minutes", .num 10)]))
        [.comps [.ok (.obj [("notification_sent", .bool true)])], .event (.str "not json")]
      = ([[⟨"send_approval_request", .obj
             [("approval_id", .str "inst-1"), ("request_type", .str "expense_approval"),
              ("amount", .num 1500), ("requester", .str "john.doe@company.com"),
              ("description", .str "Business travel expenses"),
              ("created_at", .str "2024-01-01T00:00:00"), ("timeout_minutes", .num 10)]⟩],
          [⟨"process_approval", .obj
             [("approval_request", .obj
                 [("approval_id", .str "inst-1"), ("request_type", .str "expense_approval"),
                  ("amount", .num 1500), ("requester", .str "john.doe@company.com"),
                  ("description", .str "Business travel expenses"),
                  ("created_at", .str "2024-01-01T00:00:00"), ("timeout_minutes", .num 10)]),
              ("approval_response", .obj
                 [("approved", .bool true), ("approver", .str "unknown"),
                  ("comments", .str "Parsed from string")]),
              ("status", .str "approved")]⟩]],
         none) :=
  malformed_approval_treated_as_approved "inst-1" "2024-01-01T00:00:00"
    (.obj [("request_type", .str "expense_approval"), ("amount", .num 1500),
           ("requester", .str "john.doe@company.com"),
           ("description", .str "Business travel expenses"),
           ("timeout_minutes", .num 10)])
    (.str "expense_approval") (.num 1500) (.str "john.doe@company.com")
    (.str "Business travel expenses") (.num 10)
    rfl rfl rfl rfl rfl "not json" rfl (.obj [("notification_sent", .bool true)])
end DTS
